import Mathlib

set_option maxRecDepth 2000000
set_option maxHeartbeats 1600000

/-!
Verification development for the customer identity resolution engine of the
multi-agent ticket assistant (`src/app/core/fuzzy_search.py`).

Modelling conventions:
* Python `str` is modelled as `List Char` (all data relevant to the claims is
  ASCII); `String` fields of records are converted with `.data` at use sites.
* Python `float` arithmetic is modelled exactly over `ℚ`.  All thresholds in
  the source (`0.6`, `0.7`, `0.75`, `0.9`, …) are exactly representable in
  binary-or-decimal comparisons performed by the source, so no claim hinges on
  floating-point rounding.
* A Python function that can raise an uncaught exception is modelled with
  `Option`/`Except`: `none`/`Except.error` means the call raises.
* The string-similarity metrics are the ones of `fuzzywuzzy` 0.18 in its
  pure-Python default configuration, which delegates to `difflib.SequenceMatcher`
  (no junk heuristic: the names involved are far below difflib's 200-character
  autojunk threshold).  They are re-implemented here from that library's
  observable algorithm, since the repository only calls them.
-/

namespace TicketAssistant

/-! ### Python string primitives (ASCII fragment) -/

/-- Python's default whitespace set for `str.strip` / `str.split()`:
space, tab, newline, carriage return, vertical tab, form feed. -/
def pyIsSpace (c : Char) : Bool :=
  c.toNat = 32 || c.toNat = 9 || c.toNat = 10 || c.toNat = 13 || c.toNat = 11 || c.toNat = 12

/-- ASCII `str.lower` on one character. -/
def pyToLower (c : Char) : Char :=
  if 65 ≤ c.toNat ∧ c.toNat ≤ 90 then Char.ofNat (c.toNat + 32) else c

/-- ASCII `str.upper` on one character. -/
def pyToUpper (c : Char) : Char :=
  if 97 ≤ c.toNat ∧ c.toNat ≤ 122 then Char.ofNat (c.toNat - 32) else c

/-- ASCII alphabetic test (`str.isalpha`, restricted to ASCII). -/
def pyIsAlpha (c : Char) : Bool :=
  (65 ≤ c.toNat && c.toNat ≤ 90) || (97 ≤ c.toNat && c.toNat ≤ 122)

/-- `\w` of the regex used by fuzzywuzzy's `full_process`: letter, digit or
underscore (ASCII). -/
def pyIsWordChar (c : Char) : Bool :=
  pyIsAlpha c || (48 ≤ c.toNat && c.toNat ≤ 57) || c.toNat = 95

/-- Python `str.lower`. -/
def pyLower (s : List Char) : List Char := s.map pyToLower

/-- Python `str.strip()` with no argument: drop leading and trailing
whitespace. -/
def pyStrip (s : List Char) : List Char :=
  ((s.dropWhile pyIsSpace).reverse.dropWhile pyIsSpace).reverse

/-- Python `str.split()` with no argument: split on whitespace runs,
dropping empty pieces. -/
def pySplitWs (s : List Char) : List (List Char) :=
  go s []
where
  go : List Char → List Char → List (List Char)
    | [], acc => if acc.isEmpty then [] else [acc.reverse]
    | c :: cs, acc =>
      if pyIsSpace c then
        if acc.isEmpty then go cs [] else acc.reverse :: go cs []
      else go cs (c :: acc)

/-- Python `str.split(sep)` for a one-character separator: always returns at
least one piece. -/
def pySplitOn (sep : Char) (s : List Char) : List (List Char) :=
  go s []
where
  go : List Char → List Char → List (List Char)
    | [], acc => [acc.reverse]
    | c :: cs, acc => if c = sep then acc.reverse :: go cs [] else go cs (c :: acc)

/-- Python `str.title` (ASCII): the first letter of every alphabetic run is
uppercased, the rest lowercased. -/
def pyTitle (s : List Char) : List Char :=
  go false s
where
  go : Bool → List Char → List Char
    | _, [] => []
    | prevAlpha, c :: cs =>
      (if pyIsAlpha c then (if prevAlpha then pyToLower c else pyToUpper c) else c)
        :: go (pyIsAlpha c) cs

/-! ### difflib.SequenceMatcher (no junk, autojunk inactive) -/

namespace Difflib

/-- Length of the longest common extension of `a` at `i` and `b` at `j`,
truncated to the windows `[i, ahi)` and `[j, bhi)`. -/
def commonLen (a b : List Char) (i j ahi bhi : Nat) : Nat :=
  go ((a.drop i).take (ahi - i)) ((b.drop j).take (bhi - j))
where
  go : List Char → List Char → Nat
    | x :: xs, y :: ys => if x = y then go xs ys + 1 else 0
    | _, _ => 0

/-- `SequenceMatcher.find_longest_match` on the windows `a[alo:ahi]`,
`b[blo:bhi]`: the longest matching block, ties broken by the smallest start in
`a` and then the smallest start in `b` (the documented difflib tie-break).
Returns `(i, j, size)`; `(alo, blo, 0)` when nothing matches. -/
def findLongestMatch (a b : List Char) (alo ahi blo bhi : Nat) : Nat × Nat × Nat :=
  (List.range (ahi - alo)).foldl
    (fun best di =>
      (List.range (bhi - blo)).foldl
        (fun best dj =>
          let i := alo + di
          let j := blo + dj
          let k := commonLen a b i j ahi bhi
          if k > best.2.2 then (i, j, k) else best)
        best)
    (alo, blo, 0)

/-- The recursive decomposition of `SequenceMatcher.get_matching_blocks`
(before merging): recurse to the left and to the right of the longest match.
The fuel argument strictly bounds the recursion depth; it is always called
with more fuel than the total window size, which suffices because each
recursive call strictly shrinks the window sum. -/
def matchingBlocksAux (a b : List Char) :
    Nat → Nat → Nat → Nat → Nat → List (Nat × Nat × Nat)
  | 0, _, _, _, _ => []
  | fuel + 1, alo, ahi, blo, bhi =>
    let m := findLongestMatch a b alo ahi blo bhi
    if m.2.2 = 0 then []
    else
      matchingBlocksAux a b fuel alo m.1 blo m.2.1 ++
        m :: matchingBlocksAux a b fuel (m.1 + m.2.2) ahi (m.2.1 + m.2.2) bhi

/-- difflib's adjacency merge over the collected blocks, followed by the
terminating zero-length block. `acc` is the running block `(i1, j1, k1)`
of the source loop, seeded with `(0, 0, 0)`. -/
def mergeBlocks (la lb : Nat) : Nat × Nat × Nat → List (Nat × Nat × Nat) → List (Nat × Nat × Nat)
  | acc, [] => (if acc.2.2 ≠ 0 then [acc] else []) ++ [(la, lb, 0)]
  | acc, bl :: rest =>
    if acc.1 + acc.2.2 = bl.1 ∧ acc.2.1 + acc.2.2 = bl.2.1 then
      mergeBlocks la lb (acc.1, acc.2.1, acc.2.2 + bl.2.2) rest
    else
      (if acc.2.2 ≠ 0 then [acc] else []) ++ mergeBlocks la lb bl rest

/-- `SequenceMatcher(None, a, b).get_matching_blocks()`. -/
def getMatchingBlocks (a b : List Char) : List (Nat × Nat × Nat) :=
  mergeBlocks a.length b.length (0, 0, 0)
    (matchingBlocksAux a b (a.length + b.length + 1) 0 a.length 0 b.length)

/-- Total size of the matched blocks. -/
def sumSizes (blocks : List (Nat × Nat × Nat)) : Nat :=
  (blocks.map (fun bl => bl.2.2)).sum

/-- `SequenceMatcher.ratio()` as an exact rational:
`2*M / (len a + len b)`, and `1` when both strings are empty. -/
def ratioQ (a b : List Char) : ℚ :=
  let T := a.length + b.length
  if T = 0 then 1 else (2 * sumSizes (getMatchingBlocks a b) : ℚ) / T

end Difflib

/-! ### fuzzywuzzy metrics -/

namespace Fuzz

/-- fuzzywuzzy's `utils.intr`: `int(round(x))`, i.e. rounding half to even. -/
def intr (x : ℚ) : ℤ :=
  let n := ⌊x⌋
  let f := x - n
  if f < 1 / 2 then n
  else if 1 / 2 < f then n + 1
  else if 2 ∣ n then n else n + 1

/-- `fuzz.ratio`: percentage in `0..100`. -/
def ratio (s1 s2 : List Char) : ℕ :=
  (intr (100 * Difflib.ratioQ s1 s2)).toNat

/-- `fuzz.partial_ratio`: the shorter string scored against the windows of the
longer string anchored at each matching block; `100` as soon as some window
ratio exceeds `0.995` (the source returns early, which yields the same value). -/
def partialRatio (s1 s2 : List Char) : ℕ :=
  let p := if s1.length ≤ s2.length then (s1, s2) else (s2, s1)
  let shorter := p.1
  let longer := p.2
  let blocks := Difflib.getMatchingBlocks shorter longer
  let scores := blocks.map (fun bl =>
    let longStart := bl.2.1 - bl.1
    Difflib.ratioQ shorter ((longer.drop longStart).take shorter.length))
  if scores.any (fun r => r > 995 / 1000) then 100
  else (intr (100 * scores.foldl max 0)).toNat

/-- fuzzywuzzy's `utils.full_process` with `force_ascii` (the `token_sort_ratio`
default): drop non-ASCII characters, replace every non-`\w` character with a
space, lowercase, strip. -/
def fullProcess (s : List Char) : List Char :=
  pyStrip (pyLower ((s.filter (fun c => c.toNat < 128)).map
    (fun c => if pyIsWordChar c then c else ' ')))

/-- Lexicographic comparison of Python strings (by code point). -/
def lexLe : List Char → List Char → Bool
  | [], _ => true
  | _ :: _, [] => false
  | a :: as, b :: bs =>
    if a.toNat < b.toNat then true
    else if b.toNat < a.toNat then false
    else lexLe as bs

/-- Insertion sort by `lexLe`; tokens that compare equal are identical strings,
so any correct sort produces Python's `sorted(tokens)`. -/
def insertToken (x : List Char) : List (List Char) → List (List Char)
  | [] => [x]
  | y :: ys => if lexLe x y then x :: y :: ys else y :: insertToken x ys

def sortTokens : List (List Char) → List (List Char)
  | [] => []
  | x :: xs => insertToken x (sortTokens xs)

/-- fuzzywuzzy's `_process_and_sort`: full-process, split on whitespace, sort
the tokens, join with single spaces, strip. -/
def processAndSort (s : List Char) : List Char :=
  pyStrip (List.intercalate [' '] (sortTokens (pySplitWs (fullProcess s))))

/-- `fuzz.token_sort_ratio` (with its default full processing). -/
def tokenSortRatio (s1 s2 : List Char) : ℕ :=
  ratio (processAndSort s1) (processAndSort s2)

end Fuzz

/-! ### Data model (src/app/core/models.py, src/app/core/research_models.py)

Only the fields consulted by the matcher are carried; the remaining customer
fields (`address`, `company_info`, `purchases`, …) and the `relevant_data`
snapshot of the result are opaque to every claim and are omitted. -/

/-- `ContactPerson` (models.py): the matcher only reads `email`. -/
structure ContactPerson where
  name : String
  email : String
deriving DecidableEq, Repr

/-- `Customer` (models.py), restricted to the fields the matcher reads. -/
structure Customer where
  id : String
  name : String
  contact_person : ContactPerson
deriving DecidableEq, Repr

/-- `CustomerMatchResult` (research_models.py). `confidence_score` is a float
in `[0, 1]`; `customer_id`/`customer_name` are `Optional`. -/
structure CustomerMatchResult where
  customer_id : Option String := none
  customer_name : Option String := none
  confidence_score : ℚ
  match_reason : String
deriving DecidableEq, Repr

/-! ### CustomerFuzzySearch (src/app/core/fuzzy_search.py)

The class only stores the customer roster (`self.customers`); every method is
modelled as a function over that roster.  Functions that can raise an uncaught
Python exception return `Option`/`Except`, `none`/`error` marking the raise. -/

namespace CustomerFuzzySearch

/-- The `legal_forms` list of `_extract_core_company_name`, in source order. -/
def legal_forms : List (List Char) :=
  [("gmbh").data, ("ag").data, ("kg").data, ("ohg").data, ("gbr").data,
   ("ug").data, ("eg").data, ("ev").data, ("gmbh & co. kg").data,
   ("gmbh & co kg").data, ("se").data, ("kgaa").data]

/-- The generic business `suffixes` list of `_extract_core_company_name`. -/
def business_suffixes : List (List Char) :=
  [("gesellschaft").data, ("unternehmen").data, ("betrieb").data, ("firma").data]

/-- One pass of the for-loop in `_extract_core_company_name`: strip the first
form of `forms` that the name ends with (preceded-by-space variant first),
then `break`. -/
def stripFirstForm : List (List Char) → List Char → List Char
  | [], s => s
  | f :: fs, s =>
    if (' ' :: f).isSuffixOf s then pyStrip (s.take (s.length - (f.length + 1)))
    else if f.isSuffixOf s then pyStrip (s.take (s.length - f.length))
    else stripFirstForm fs s

/-- `_extract_core_company_name`: lowercase and strip, remove the first legal
form the name ends with, then the first generic suffix, and title-case. -/
def extract_core_company_name (company_name : List Char) : List Char :=
  pyTitle (stripFirstForm business_suffixes
    (stripFirstForm legal_forms (pyStrip (pyLower company_name))))

/-- The `business_words` stoplist of `_is_likely_partial_match`. -/
def business_words : List (List Char) :=
  [("gmbh").data, ("ag").data, ("kg").data, ("maschinenbau").data,
   ("laboratorien").data, ("labs").data, ("industries").data]

/-- `_is_likely_partial_match`: with a high partial score, reject when either
name's word set minus the stoplist is empty, or the two filtered sets do not
intersect.  Python's `set` is modelled by the token list: emptiness and
disjointness of the sets agree with emptiness and disjointness of the lists. -/
def is_likely_partial_match (name1 name2 : List Char) (partial_score : ℚ) : Bool :=
  if partial_score ≥ 7 / 10 then
    let words1 := pySplitWs (pyLower name1)
    let words2 := pySplitWs (pyLower name2)
    let words1_filtered := words1.filter (fun w => ¬ business_words.contains w)
    let words2_filtered := words2.filter (fun w => ¬ business_words.contains w)
    if words1_filtered.isEmpty || words2_filtered.isEmpty then true
    else if ¬ words1_filtered.any (fun w => words2_filtered.contains w) then true
    else false
  else false

/-- `_calculate_length_penalty` on the two core names. -/
def calculate_length_penalty (name1 name2 : List Char) : ℚ :=
  let len1 := name1.length
  let len2 := name2.length
  if len1 = 0 ∨ len2 = 0 then 1 / 2
  else
    let length_ratio : ℚ := (min len1 len2 : ℚ) / (max len1 len2 : ℚ)
    if length_ratio ≥ 7 / 10 then 1
    else if length_ratio ≥ 1 / 2 then 85 / 100
    else 6 / 10

/-- The three metric scores of `_calculate_consensus_score`, scaled to `[0,1]`
in source order: whole ratio, partial ratio, token-sort ratio of the
lowercased core names. -/
def consensus_scores (name1 name2 : List Char) : List ℚ :=
  let core_name1 := extract_core_company_name name1
  let core_name2 := extract_core_company_name name2
  [(Fuzz.ratio (pyLower core_name1) (pyLower core_name2) : ℚ) / 100,
   (Fuzz.partialRatio (pyLower core_name1) (pyLower core_name2) : ℚ) / 100,
   (Fuzz.tokenSortRatio (pyLower core_name1) (pyLower core_name2) : ℚ) / 100]

/-- `_calculate_consensus_score`: consensus gate (at least 2 of 3 scores
`≥ 0.6`), partial-match rejection, weighted average `0.4/0.3/0.3`, length
penalty. -/
def calculate_consensus_score (name1 name2 : List Char) : ℚ :=
  let core_name1 := extract_core_company_name name1
  let core_name2 := extract_core_company_name name2
  let scores := consensus_scores name1 name2
  let high_scores := scores.filter (fun s => s ≥ 6 / 10)
  if high_scores.length < 2 then 0
  else if is_likely_partial_match core_name1 core_name2 (scores.getD 1 0) then 0
  else
    let weighted_score :=
      scores.getD 0 0 * (4 / 10) + scores.getD 1 0 * (3 / 10) + scores.getD 2 0 * (3 / 10)
    weighted_score * calculate_length_penalty core_name1 core_name2

/-- Reason string of the exact tier. -/
def exactReason : String := "Exakte Firmenname-Übereinstimmung"

/-- Reason string of the fuzzy tier.  The source interpolates the consensus
score formatted as a percentage with one decimal into this message; the
rendered digits are irrelevant to every claim and are elided here. -/
def fuzzyReason : String :=
  "Ungefähre Firmenname-Übereinstimmung (Konsens-Score: ...)"

/-- Reason string of the email tier, with the integer similarity interpolated
as in the source f-string. -/
def emailReason (name_similarity : ℕ) : String :=
  "E-Mail-Domain-Übereinstimmung mit Firmenname-Ähnlichkeit (" ++
    toString name_similarity ++ "%)"

/-- No-match reason for an empty or whitespace-only company name. -/
def noNameReason : String := "Kein Firmenname angegeben"

/-- No-match reason when no tier produced a result. -/
def noMatchReason : String := "Keine passende Kundenzuordnung gefunden"

/-- `_find_exact_match`: first roster entry whose stripped-lowercased name
equals the stripped-lowercased input. -/
def find_exact_match (customers : List Customer) (company_name : List Char) :
    Option CustomerMatchResult :=
  let company_name_clean := pyLower (pyStrip company_name)
  match customers.find? (fun c => pyLower (pyStrip c.name.data) = company_name_clean) with
  | some customer =>
    some { customer_id := some customer.id, customer_name := some customer.name,
           confidence_score := 1, match_reason := exactReason }
  | none => none

/-- The loop body of `_find_fuzzy_company_match`: the running pair
`(best_score, best_customer)` is replaced only on a strictly greater score. -/
def fuzzyStep (company_name : List Char) (best : ℚ × Option Customer) (customer : Customer) :
    ℚ × Option Customer :=
  let score := calculate_consensus_score company_name customer.name.data
  if score > best.1 then (score, some customer) else best

/-- The running-best fold of `_find_fuzzy_company_match`, started at
`(0.0, None)`. -/
def fuzzyBest (customers : List Customer) (company_name : List Char) : ℚ × Option Customer :=
  customers.foldl (fuzzyStep company_name) (0, none)

/-- `_find_fuzzy_company_match`: accept the best consensus match at `≥ 0.75`.
`best_customer` is necessarily present when `best_score ≥ 0.75 > 0`, so the
impossible branch is mapped to `none`. -/
def find_fuzzy_company_match (customers : List Customer) (company_name : List Char) :
    Option CustomerMatchResult :=
  let best := fuzzyBest customers company_name
  if best.1 ≥ 75 / 100 then
    match best.2 with
    | some best_customer =>
      some { customer_id := some best_customer.id, customer_name := some best_customer.name,
             confidence_score := best.1, match_reason := fuzzyReason }
    | none => none
  else none

/-- The customer loop of `_find_email_match` (lines 251–268).
`Except.error ()` models the uncaught `IndexError` raised by
`customer.contact_person.email.split('@')[1]` when a truthy roster email
contains no `'@'`. -/
def email_loop (company_name email_domain : List Char) :
    List Customer → Except Unit (Option CustomerMatchResult)
  | [] => Except.ok none
  | customer :: rest =>
    if customer.contact_person.email.data.isEmpty then
      email_loop company_name email_domain rest
    else
      match (pySplitOn '@' customer.contact_person.email.data).get? 1 with
      | none => Except.error ()
      | some dom =>
        if pyLower dom = email_domain then
          let name_similarity :=
            Fuzz.partialRatio (pyLower company_name) (pyLower customer.name.data)
          if name_similarity ≥ 50 then
            Except.ok (some
              { customer_id := some customer.id, customer_name := some customer.name,
                confidence_score := min (9 / 10) ((name_similarity + 70 : ℚ) / 100),
                match_reason := emailReason name_similarity })
          else email_loop company_name email_domain rest
        else email_loop company_name email_domain rest

/-- `_find_email_match`: guard, domain extraction, and the customer loop. -/
def find_email_match (customers : List Customer) (contact_email : List Char)
    (company_name : List Char) : Except Unit (Option CustomerMatchResult) :=
  if contact_email.isEmpty || ¬ contact_email.contains '@' then Except.ok none
  else
    email_loop company_name (pyLower ((pySplitOn '@' contact_email).getD 1 [])) customers

/-- Line 54 of the source: `return fuzzy_match if fuzzy_match else
CustomerMatchResult(confidence_score=0.0, match_reason="Keine passende …")`. -/
def finalResult (fuzzy_match : Option CustomerMatchResult) : CustomerMatchResult :=
  fuzzy_match.getD { confidence_score := 0, match_reason := noMatchReason }

/-- Lines 47–57 of the source, entered once tiers 1 and 2 have not returned.
`none` models an uncaught exception: either the `IndexError` propagated out of
`_find_email_match`, or the `AttributeError` of line 50, where
`fuzzy_match.confidence_score` is read while `fuzzy_match` is `None`. -/
def emailPhase (customers : List Customer) (company_name contact_email : List Char)
    (fuzzy_match : Option CustomerMatchResult) : Option CustomerMatchResult :=
  if ¬ contact_email.isEmpty then
    match find_email_match customers contact_email company_name with
    | Except.error _ => none
    | Except.ok none => some (finalResult fuzzy_match)
    | Except.ok (some email_match) =>
      match fuzzy_match with
      | none => none
      | some f =>
        if email_match.confidence_score > f.confidence_score then some email_match
        else some (finalResult fuzzy_match)
  else some (finalResult fuzzy_match)

/-- `find_customer_match`.  `contact_name` is accepted and ignored exactly as
in the source.  The result is `some r` when the Python function returns `r`,
and `none` when it raises an uncaught exception. -/
def find_customer_match (customers : List Customer)
    (company_name contact_name contact_email : String) : Option CustomerMatchResult :=
  if (pyStrip company_name.data).isEmpty then
    some { confidence_score := 0, match_reason := noNameReason }
  else
    match find_exact_match customers company_name.data with
    | some exact_match => some exact_match
    | none =>
      let fuzzy_match := find_fuzzy_company_match customers company_name.data
      match fuzzy_match with
      | some f =>
        if f.confidence_score > 7 / 10 then some f
        else emailPhase customers company_name.data contact_email.data fuzzy_match
      | none => emailPhase customers company_name.data contact_email.data fuzzy_match

end CustomerFuzzySearch

/-! ### Concrete fixtures used by the claim theorems and witnesses -/

namespace Fixtures

open CustomerFuzzySearch

/-- A roster entry in the style of the demo CRM data. -/
def acmeCustomer : Customer :=
  { id := "C-ACME"
    name := "Acme Maschinenbau GmbH"
    contact_person := { name := "Maria Mueller", email := "m.mueller@acme.de" } }

/-- A roster entry whose stored contact email is malformed (no `'@'`). -/
def betaCustomer : Customer :=
  { id := "C-BETA"
    name := "Beta Werk GmbH"
    contact_person := { name := "Bert Bauer", email := "kontakt.beta.de" } }

/-- First of two roster entries sharing one company name (tie fixture). -/
def tieCustomer1 : Customer :=
  { id := "C-1"
    name := "Acme Bau GmbH"
    contact_person := { name := "Anna", email := "a@acmebau.de" } }

/-- Second of two roster entries sharing one company name (tie fixture). -/
def tieCustomer2 : Customer :=
  { id := "C-2"
    name := "Acme Bau GmbH"
    contact_person := { name := "Ben", email := "b@acmebau.de" } }

/-- A short-named roster entry used for the tier-2/tier-3 comparison. -/
def bauCustomer : Customer :=
  { id := "C-BAU"
    name := "Acme Bau GmbH"
    contact_person := { name := "Ida", email := "info@acmebau.de" } }

/-- The tier-2 result produced for the input `"Acmo Bau GmbH"` against
`bauCustomer` (all three metrics 88, consensus score `0.88`). -/
def bauFuzzyResult : CustomerMatchResult :=
  { customer_id := some "C-BAU"
    customer_name := some "Acme Bau GmbH"
    confidence_score := 22 / 25
    match_reason := fuzzyReason }

/-- The tier-3 candidate produced for the input `"Acmo Bau GmbH"` with a
contact email at domain `acmebau.de` (name similarity 92, capped
confidence `0.9`). -/
def bauEmailResult : CustomerMatchResult :=
  { customer_id := some "C-BAU"
    customer_name := some "Acme Bau GmbH"
    confidence_score := 9 / 10
    match_reason := emailReason 92 }

/-- The exact-tier result for `acmeCustomer`. -/
def acmeExactResult : CustomerMatchResult :=
  { customer_id := some "C-ACME"
    customer_name := some "Acme Maschinenbau GmbH"
    confidence_score := 1
    match_reason := exactReason }

/-- The no-suitable-match fallback result. -/
def noSuitableResult : CustomerMatchResult :=
  { confidence_score := 0, match_reason := noMatchReason }

end Fixtures

/-- Decidable equality of `Except` values, used to evaluate
`find_email_match` on concrete inputs. -/
instance {ε α : Type} [DecidableEq ε] [DecidableEq α] : DecidableEq (Except ε α) := fun a b =>
  match a, b with
  | .error e, .error f =>
    if h : e = f then isTrue (by rw [h]) else isFalse (fun hh => by cases hh; exact h rfl)
  | .ok x, .ok y =>
    if h : x = y then isTrue (by rw [h]) else isFalse (fun hh => by cases hh; exact h rfl)
  | .error _, .ok _ => isFalse (fun hh => by cases hh)
  | .ok _, .error _ => isFalse (fun hh => by cases hh)

/-- The result-shape invariant asserted by claim C9 for every returned
`CustomerMatchResult`: either a successful match (customer id and name
present, strictly positive confidence) or an explicit no-match (id absent,
confidence zero) — the two forms are mutually exclusive — with the
confidence within `[0, 1]` and a non-empty reason. -/
def goodResult (r : CustomerMatchResult) : Prop :=
  ((r.customer_id.isSome ∧ r.customer_name.isSome ∧ 0 < r.confidence_score) ∨
    (r.customer_id = none ∧ r.confidence_score = 0)) ∧
  0 ≤ r.confidence_score ∧ r.confidence_score ≤ 1 ∧ r.match_reason ≠ ""

/-! ## Helper lemmas -/

namespace Helpers

/-- A left fold preserves any invariant preserved by its step function. -/
theorem foldl_invariant {α β : Type} (f : β → α → β) (P : β → Prop) :
    ∀ (l : List α) (init : β), P init → (∀ b a, P b → P (f b a)) → P (l.foldl f init) := by
  intro l
  induction l with
  | nil => intro init h _; exact h
  | cons x xs ih => intro init h hstep; exact ih (f init x) (hstep init x h) hstep

/-- `find?` returns the distinguished element when it is the only one
satisfying the predicate. -/
theorem find_eq_some_of_unique {α : Type} (p : α → Bool) (a : α) :
    ∀ l : List α, a ∈ l → p a = true → (∀ b ∈ l, p b = true → b = a) →
      l.find? p = some a := by
  intro l
  induction l with
  | nil => intro h; cases h
  | cons x xs ih =>
    intro hmem hpa huniq
    by_cases hx : p x = true
    · have hxa : x = a := huniq x (List.mem_cons_self x xs) hx
      rw [List.find?_cons_of_pos _ hx, hxa]
    · have hax : a ∈ xs := by
        cases hmem with
        | head => exact absurd hpa hx
        | tail _ h => exact h
      rw [List.find?_cons_of_neg _ (by simpa using hx)]
      exact ih hax hpa (fun b hb hpb => huniq b (List.mem_cons_of_mem x hb) hpb)

end Helpers

end TicketAssistant

set_option linter.unusedVariables false

open TicketAssistant TicketAssistant.CustomerFuzzySearch TicketAssistant.Fixtures

/-! ## Claims -/

/-- **C1** — REFUTED by the code (code bug).  The spec says
`find_customer_match` never raises for well-formed string inputs.  On the
well-formed pair `("Acme Labs", "someone@acme.de")` against a one-entry
roster, tier 2 yields no candidate (best consensus `0.0 < 0.75`, so
`fuzzy_match is None`), tier 3 finds an email-domain candidate, and line 50
of fuzzy_search.py evaluates `fuzzy_match.confidence_score` on `None`,
raising `AttributeError` (modelled as `none`). -/
theorem C1_matcher_raises_on_tier3_without_tier2 :
    find_customer_match [acmeCustomer] ("Acme Labs") ("") ("someone@acme.de") = none := by
  with_unfolding_all decide

/-- **C2** — REFUTED by the code (code bug).  In the claim's scenario —
email domain matches (`acme.de`), partial-ratio name similarity `78 ≥ 50`,
no tier-1 or tier-2 winner — the function does not return the roster entry
via tier 3 with boosted confidence: it raises `AttributeError` at line 50,
because `fuzzy_match` is `None` exactly when no tier-2 candidate exists. -/
theorem C2_tier3_result_never_returned_when_tier2_empty :
    find_customer_match [acmeCustomer] ("Acme Labs") ("") ("partner@acme.de") = none := by
  with_unfolding_all decide

/-- **C4** — REFUTED by the code (code bug).  The `legal_forms` list checks
the single-word form `"kg"` before the multi-word form `"gmbh & co. kg"` and
breaks at the first hit, so a name ending in `"GmbH & Co. KG"` only loses the
trailing `"kg"`: the extracted core is `"Acme Gmbh & Co."`, not `"Acme"`
(the two multi-word entries of the list are unreachable). -/
theorem C4_multiword_suffix_not_stripped :
    extract_core_company_name ("Acme GmbH & Co. KG").data = ("Acme Gmbh & Co.").data ∧
      extract_core_company_name ("Acme GmbH & Co. KG").data ≠ ("Acme").data := by
  with_unfolding_all decide

/-- Any accepted tier-2 candidate carries the best consensus score, which the
acceptance test bounds below by `0.75`. -/
theorem fuzzy_some_conf_ge (customers : List Customer) (cn : List Char)
    (f : TicketAssistant.CustomerMatchResult)
    (h : find_fuzzy_company_match customers cn = some f) :
    75 / 100 ≤ f.confidence_score := by
  simp only [find_fuzzy_company_match] at h
  split at h
  next hge =>
    split at h
    · cases h; exact hge
    · cases h
  next => cases h

/-- **C7** — CONFIRMED.  When fewer than two of the three scaled similarity
scores reach `0.6`, `_calculate_consensus_score` returns exactly `0.0`,
before any weighted average is computed. -/
theorem C7_consensus_gate_forces_zero (name1 name2 : List Char)
    (h : ((consensus_scores name1 name2).filter (fun s => s ≥ (6 : ℚ) / 10)).length < 2) :
    calculate_consensus_score name1 name2 = 0 := by
  simp only [calculate_consensus_score]
  rw [if_pos h]

/-- Witness for C7: for `"Zeta Pumpen GmbH"` vs `"Omega Vertrieb AG"` the
three scores are `0.32 / 0.36 / 0.40`, none reaches `0.6`, and the consensus
score is `0.0`. -/
theorem C7_witness :
    (((consensus_scores ("Zeta Pumpen GmbH").data ("Omega Vertrieb AG").data).filter
        (fun s => s ≥ (6 : ℚ) / 10)).length < 2) ∧
      calculate_consensus_score ("Zeta Pumpen GmbH").data ("Omega Vertrieb AG").data = 0 :=
  ⟨by with_unfolding_all decide,
   C7_consensus_gate_forces_zero _ _ (by with_unfolding_all decide)⟩

/-- Boolean skeleton of the word-set branch of `_is_likely_partial_match`. -/
theorem ite_stoplist_aux (b1 b2 bany : Bool)
    (h : b1 = true ∨ b2 = true ∨ bany = false) :
    (if (b1 || b2) = true then true else if ¬ bany = true then true else false) = true := by
  rcases h with h | h | h
  · rw [h]
    simp only [Bool.true_or]
    exact if_pos trivial
  · rw [h]
    simp only [Bool.or_true]
    exact if_pos trivial
  · rw [h]
    by_cases he : (b1 || b2) = true
    · rw [if_pos he]
    · rw [if_neg he, if_pos (by simp : ¬ false = true)]

/-- With a partial score of at least `0.7`, `_is_likely_partial_match` fires
whenever one stoplist-filtered word list is empty or the two filtered word
lists are disjoint. -/
theorem is_likely_partial_match_true (name1 name2 : List Char) (ps : ℚ)
    (hp : ps ≥ 7 / 10)
    (hw : ((pySplitWs (pyLower name1)).filter
              (fun w => ¬ business_words.contains w)).isEmpty = true ∨
          ((pySplitWs (pyLower name2)).filter
              (fun w => ¬ business_words.contains w)).isEmpty = true ∨
          ((pySplitWs (pyLower name1)).filter (fun w => ¬ business_words.contains w)).any
              (fun w => ((pySplitWs (pyLower name2)).filter
                (fun w => ¬ business_words.contains w)).contains w) = false) :
    is_likely_partial_match name1 name2 ps = true := by
  simp only [is_likely_partial_match]
  rw [if_pos hp]
  exact ite_stoplist_aux _ _ _ hw

/-- The second entry of the score list built by `_calculate_consensus_score`
is the scaled partial ratio of the lowercased core names. -/
theorem consensus_scores_getD_one (name1 name2 : List Char) :
    (consensus_scores name1 name2).getD 1 0 =
      (Fuzz.partialRatio (pyLower (extract_core_company_name name1))
        (pyLower (extract_core_company_name name2)) : ℚ) / 100 := rfl

/-- **C6** — CONFIRMED.  (1) The pair `"Acme Labs GmbH"` vs
`"Acme Maschinenbau GmbH"` has consensus score exactly `0.0` (its metric
scores are `0.54 / 0.78 / 0.54`, so the 2-of-3 gate already rejects it).
(2) Generally, whenever the scaled partial-ratio score of the core names is
`≥ 0.7` and the core names' word sets minus the stoplist are empty on one
side or have empty intersection, the consensus score is forced to `0.0` —
either by the gate or by `_is_likely_partial_match`. -/
theorem C6_stoplist_rejection_and_acme_pair_zero :
    calculate_consensus_score ("Acme Labs GmbH").data ("Acme Maschinenbau GmbH").data = 0 ∧
    ∀ name1 name2 : List Char,
      (7 : ℚ) / 10 ≤ (Fuzz.partialRatio (pyLower (extract_core_company_name name1))
          (pyLower (extract_core_company_name name2)) : ℚ) / 100 →
      (((pySplitWs (pyLower (extract_core_company_name name1))).filter
           (fun w => ¬ business_words.contains w)).isEmpty = true ∨
        ((pySplitWs (pyLower (extract_core_company_name name2))).filter
           (fun w => ¬ business_words.contains w)).isEmpty = true ∨
        ((pySplitWs (pyLower (extract_core_company_name name1))).filter
           (fun w => ¬ business_words.contains w)).any
           (fun w => ((pySplitWs (pyLower (extract_core_company_name name2))).filter
             (fun w => ¬ business_words.contains w)).contains w) = false) →
      calculate_consensus_score name1 name2 = 0 := by
  constructor
  · with_unfolding_all decide
  · intro name1 name2 hp hw
    simp only [calculate_consensus_score]
    split_ifs with hgate hlik
    · rfl
    · rfl
    · refine absurd (is_likely_partial_match_true _ _ _ ?_ hw) hlik
      rw [consensus_scores_getD_one]
      exact hp

/-- Witness for C6's generic part: `"Hansen GmbH"` vs `"Jansen GmbH"` has all
three metric scores `0.83` (gate passes), filtered word sets
`{hansen}` and `{jansen}` with empty intersection, and consensus `0.0`. -/
theorem C6_witness :
    ((7 : ℚ) / 10 ≤ (Fuzz.partialRatio
        (pyLower (extract_core_company_name ("Hansen GmbH").data))
        (pyLower (extract_core_company_name ("Jansen GmbH").data)) : ℚ) / 100) ∧
      calculate_consensus_score ("Hansen GmbH").data ("Jansen GmbH").data = 0 :=
  ⟨by with_unfolding_all decide,
   C6_stoplist_rejection_and_acme_pair_zero.2 ("Hansen GmbH").data ("Jansen GmbH").data
     (by with_unfolding_all decide) (by with_unfolding_all decide)⟩

/-- **C3** — REFUTED by the code (counterexample).  For the input
`"Acmo Bau GmbH"` against the `bauCustomer` roster entry, tier 2 produces a
candidate at consensus `0.88` and tier 3 produces a candidate at confidence
`0.9 > 0.88`; `find_customer_match` nevertheless returns the tier-2
candidate, because a tier-2 candidate (always `≥ 0.75 > 0.7`) returns
immediately at line 45 and tier 3 is never evaluated. -/
theorem C3_counterexample_tier2_beats_stronger_tier3 :
    find_fuzzy_company_match [bauCustomer] ("Acmo Bau GmbH").data = some bauFuzzyResult ∧
      find_email_match [bauCustomer] ("mia@acmebau.de").data ("Acmo Bau GmbH").data =
        Except.ok (some bauEmailResult) ∧
      bauFuzzyResult.confidence_score < bauEmailResult.confidence_score ∧
      find_customer_match [bauCustomer] ("Acmo Bau GmbH") ("") ("mia@acmebau.de") =
        some bauFuzzyResult :=
  ⟨by with_unfolding_all decide, by with_unfolding_all decide,
   by with_unfolding_all decide, by with_unfolding_all decide⟩

/-- **C3 amended** — what the code actually does: whenever tier 2 produces a
candidate, `find_customer_match` returns it unconditionally (its confidence
is `≥ 0.75 > 0.7`), regardless of any tier-3 candidate. -/
theorem C3_amended_tier2_candidate_always_wins (customers : List Customer)
    (company_name contact_name contact_email : String)
    (f : TicketAssistant.CustomerMatchResult)
    (hname : (pyStrip company_name.data).isEmpty = false)
    (hexact : find_exact_match customers company_name.data = none)
    (hfuzzy : find_fuzzy_company_match customers company_name.data = some f) :
    find_customer_match customers company_name contact_name contact_email = some f := by
  have hconf : (75 : ℚ) / 100 ≤ f.confidence_score :=
    fuzzy_some_conf_ge customers company_name.data f hfuzzy
  simp only [find_customer_match, hname, hexact, hfuzzy, Bool.false_eq_true, if_false]
  rw [if_pos (by linarith : f.confidence_score > 7 / 10)]

/-- Witness for the amended C3. -/
theorem C3_amended_witness :
    (pyStrip (("Acmo Bau GmbH") : String).data).isEmpty = false ∧
      find_exact_match [bauCustomer] (("Acmo Bau GmbH") : String).data = none ∧
      find_fuzzy_company_match [bauCustomer] (("Acmo Bau GmbH") : String).data =
        some bauFuzzyResult ∧
      find_customer_match [bauCustomer] ("Acmo Bau GmbH") ("") ("zz@acmebau.de") =
        some bauFuzzyResult :=
  ⟨by with_unfolding_all decide, by with_unfolding_all decide, by with_unfolding_all decide,
   C3_amended_tier2_candidate_always_wins [bauCustomer] _ _ _ _
     (by with_unfolding_all decide) (by with_unfolding_all decide)
     (by with_unfolding_all decide)⟩

/-- **C5** — REFUTED by the code (code bug).  A roster entry whose stored
contact email is non-empty but lacks `'@'` (`"kontakt.beta.de"`) is not
skipped: `customer.contact_person.email.split('@')[1]` raises `IndexError`
(modelled as `none`), failing the whole call instead of returning a
well-formed `MatchResult`. -/
theorem C5_malformed_roster_email_fails_call :
    find_customer_match [betaCustomer] ("Gamma Corp") ("") ("x@beta.de") = none := by
  with_unfolding_all decide

/-- Exact-tier lookup: when the stripped-lowercased input equals entry `c`'s
normalized name and `c` is the unique such roster entry, `_find_exact_match`
returns `c`'s record. -/
theorem find_exact_match_eq (customers : List Customer) (c : TicketAssistant.Customer)
    (input : List Char)
    (hmem : c ∈ customers)
    (hinput : pyLower (pyStrip input) = pyLower (pyStrip c.name.data))
    (huniq : ∀ b ∈ customers,
      pyLower (pyStrip b.name.data) = pyLower (pyStrip c.name.data) → b = c) :
    find_exact_match customers input =
      some { customer_id := some c.id, customer_name := some c.name,
             confidence_score := 1, match_reason := exactReason } := by
  simp only [find_exact_match]
  rw [TicketAssistant.Helpers.find_eq_some_of_unique _ c customers hmem
    (decide_eq_true hinput.symm)
    (fun b hb hpb => huniq b hb ((of_decide_eq_true hpb).trans hinput))]

/-- **C8** — CONFIRMED.  For a roster entry `c` whose normalized (stripped,
lowercased) name is non-empty and identifies it uniquely in the roster, any
input equal to `c`'s name up to leading/trailing whitespace and letter case
makes `find_customer_match` return `c`'s customer id and name with confidence
exactly `1.0` and the exact-match reason, bypassing every other tier. -/
theorem C8_exact_match_short_circuits (customers : List Customer)
    (c : TicketAssistant.Customer) (input contact_name contact_email : String)
    (hmem : c ∈ customers)
    (hne : (pyStrip input.data).isEmpty = false)
    (hinput : pyLower (pyStrip input.data) = pyLower (pyStrip c.name.data))
    (huniq : ∀ b ∈ customers,
      pyLower (pyStrip b.name.data) = pyLower (pyStrip c.name.data) → b = c) :
    find_customer_match customers input contact_name contact_email =
      some { customer_id := some c.id, customer_name := some c.name,
             confidence_score := 1, match_reason := exactReason } := by
  simp only [find_customer_match, hne, Bool.false_eq_true, if_false]
  rw [find_exact_match_eq customers c input.data hmem hinput huniq]

/-- Witness for C8: `"  ACME maschinenbau GMBH  "` resolves to the Acme
entry at confidence `1.0` with the exact-match reason. -/
theorem C8_witness :
    acmeCustomer ∈ [acmeCustomer] ∧
      (pyStrip (("  ACME maschinenbau GMBH  ") : String).data).isEmpty = false ∧
      find_customer_match [acmeCustomer] ("  ACME maschinenbau GMBH  ") ("") ("x@y.de") =
        some acmeExactResult :=
  ⟨List.mem_cons_self _ _, by with_unfolding_all decide,
   C8_exact_match_short_circuits [acmeCustomer] acmeCustomer _ _ _
     (List.mem_cons_self _ _) (by with_unfolding_all decide)
     (by with_unfolding_all decide) (by with_unfolding_all decide)⟩

/-- The fuzzy fold leaves its accumulator unchanged when no remaining entry
scores strictly higher. -/
theorem fuzzyFold_stable (cn : List Char) :
    ∀ (l : List Customer) (acc : ℚ × Option TicketAssistant.Customer),
      (∀ c ∈ l, calculate_consensus_score cn c.name.data ≤ acc.1) →
      l.foldl (fuzzyStep cn) acc = acc := by
  intro l
  induction l with
  | nil => intro acc _; rfl
  | cons x xs ih =>
    intro acc hle
    have hx : calculate_consensus_score cn x.name.data ≤ acc.1 :=
      hle x (List.mem_cons_self x xs)
    simp only [List.foldl_cons, fuzzyStep]
    rw [if_neg (not_lt.mpr hx)]
    exact ih acc (fun c hc => hle c (List.mem_cons_of_mem x hc))

/-- The fuzzy fold selects the first entry attaining the maximal score `m`,
whenever the accumulator is still below `m` and every score is at most `m`. -/
theorem fuzzyFold_first_max (cn : List Char) (m : ℚ) :
    ∀ (l : List Customer) (acc : ℚ × Option TicketAssistant.Customer)
      (c0 : TicketAssistant.Customer),
      acc.1 < m →
      (∀ c ∈ l, calculate_consensus_score cn c.name.data ≤ m) →
      l.find? (fun c => decide (calculate_consensus_score cn c.name.data = m)) = some c0 →
      l.foldl (fuzzyStep cn) acc = (m, some c0) := by
  intro l
  induction l with
  | nil => intro acc c0 _ _ hfind; cases hfind
  | cons x xs ih =>
    intro acc c0 hacc hle hfind
    rcases List.find?_cons_eq_some.mp hfind with ⟨hpx, rfl⟩ | ⟨hnpx, hfind2⟩
    · have hx : calculate_consensus_score cn x.name.data = m := of_decide_eq_true hpx
      simp only [List.foldl_cons, fuzzyStep]
      rw [if_pos (by rw [hx]; exact hacc), hx]
      exact fuzzyFold_stable cn xs (m, some x)
        (fun c hc => hle c (List.mem_cons_of_mem x hc))
    · have hxf : decide (calculate_consensus_score cn x.name.data = m) = false := by
        simpa using hnpx
      have hx : ¬ calculate_consensus_score cn x.name.data = m := of_decide_eq_false hxf
      simp only [List.foldl_cons, fuzzyStep]
      by_cases hgt : acc.1 < calculate_consensus_score cn x.name.data
      · rw [if_pos hgt]
        exact ih (calculate_consensus_score cn x.name.data, some x) c0
          (lt_of_le_of_ne (hle x (List.mem_cons_self x xs)) hx)
          (fun c hc => hle c (List.mem_cons_of_mem x hc)) hfind2
      · rw [if_neg hgt]
        exact ih acc c0 hacc (fun c hc => hle c (List.mem_cons_of_mem x hc)) hfind2

/-- **C10** — CONFIRMED.  When an entry `c2` ties the maximal consensus score
of an earlier entry `c1` (score `≥ 0.75`), `_find_fuzzy_company_match`
returns the entry found first in roster order (`find?` order), because the
running best is only replaced on a strictly greater score. -/
theorem C10_tie_breaks_to_earliest (company_name : List Char)
    (l1 l2 l3 : List Customer) (c1 c2 : TicketAssistant.Customer)
    (hmax : ∀ c ∈ l1 ++ c1 :: l2 ++ c2 :: l3,
        calculate_consensus_score company_name c.name.data ≤
          calculate_consensus_score company_name c1.name.data)
    (htie : calculate_consensus_score company_name c2.name.data =
        calculate_consensus_score company_name c1.name.data)
    (hthr : 75 / 100 ≤ calculate_consensus_score company_name c1.name.data) :
    ∃ c0, (l1 ++ c1 :: l2 ++ c2 :: l3).find?
        (fun c => decide (calculate_consensus_score company_name c.name.data =
          calculate_consensus_score company_name c1.name.data)) = some c0 ∧
      find_fuzzy_company_match (l1 ++ c1 :: l2 ++ c2 :: l3) company_name =
        some { customer_id := some c0.id, customer_name := some c0.name,
               confidence_score := calculate_consensus_score company_name c1.name.data,
               match_reason := fuzzyReason } := by
  have hmem : c1 ∈ l1 ++ c1 :: l2 ++ c2 :: l3 := by simp
  have hsome : ((l1 ++ c1 :: l2 ++ c2 :: l3).find?
      (fun c => decide (calculate_consensus_score company_name c.name.data =
        calculate_consensus_score company_name c1.name.data))).isSome :=
    List.find?_isSome.mpr ⟨c1, hmem, decide_eq_true rfl⟩
  obtain ⟨c0, hc0⟩ := Option.isSome_iff_exists.mp hsome
  refine ⟨c0, hc0, ?_⟩
  have hm0 : (0 : ℚ) < calculate_consensus_score company_name c1.name.data :=
    lt_of_lt_of_le (by norm_num) hthr
  have hfold := fuzzyFold_first_max company_name
    (calculate_consensus_score company_name c1.name.data)
    (l1 ++ c1 :: l2 ++ c2 :: l3) (0, none) c0 hm0 hmax hc0
  simp only [find_fuzzy_company_match, fuzzyBest, hfold]
  rw [if_pos hthr]

/-- Witness for C10: two roster entries named `"Acme Bau GmbH"` both score
`1.0` on the input `"Acme Bau AG"`, and the first (`C-1`) is returned. -/
theorem C10_witness :
    ((75 : ℚ) / 100 ≤
        calculate_consensus_score (("Acme Bau AG") : String).data tieCustomer1.name.data) ∧
      (∃ c0, (([] : List Customer) ++ tieCustomer1 :: ([] : List Customer) ++
            tieCustomer2 :: ([] : List Customer)).find?
          (fun c => decide (calculate_consensus_score (("Acme Bau AG") : String).data
              c.name.data =
            calculate_consensus_score (("Acme Bau AG") : String).data
              tieCustomer1.name.data)) = some c0 ∧
        find_fuzzy_company_match (([] : List Customer) ++ tieCustomer1 ::
            ([] : List Customer) ++ tieCustomer2 :: ([] : List Customer))
            (("Acme Bau AG") : String).data =
          some { customer_id := some c0.id, customer_name := some c0.name,
                 confidence_score := calculate_consensus_score
                   (("Acme Bau AG") : String).data tieCustomer1.name.data,
                 match_reason := fuzzyReason }) :=
  ⟨by with_unfolding_all decide,
   C10_tie_breaks_to_earliest (("Acme Bau AG") : String).data [] [] []
     tieCustomer1 tieCustomer2 (by with_unfolding_all decide)
     (by with_unfolding_all decide) (by with_unfolding_all decide)⟩

/-- The matched-prefix counter of `commonLen` is bounded by either input
length. -/
theorem commonLen_go_le_left : ∀ xs ys : List Char,
    TicketAssistant.Difflib.commonLen.go xs ys ≤ xs.length := by
  intro xs
  induction xs with
  | nil => intro ys; cases ys <;> simp [TicketAssistant.Difflib.commonLen.go]
  | cons x xs ih =>
    intro ys
    cases ys with
    | nil => simp [TicketAssistant.Difflib.commonLen.go]
    | cons y ys =>
      simp only [TicketAssistant.Difflib.commonLen.go, List.length_cons]
      split_ifs
      · exact Nat.succ_le_succ (ih ys)
      · exact Nat.zero_le _

theorem commonLen_go_le_right : ∀ xs ys : List Char,
    TicketAssistant.Difflib.commonLen.go xs ys ≤ ys.length := by
  intro xs
  induction xs with
  | nil => intro ys; cases ys <;> simp [TicketAssistant.Difflib.commonLen.go]
  | cons x xs ih =>
    intro ys
    cases ys with
    | nil => simp [TicketAssistant.Difflib.commonLen.go]
    | cons y ys =>
      simp only [TicketAssistant.Difflib.commonLen.go, List.length_cons]
      split_ifs
      · exact Nat.succ_le_succ (ih ys)
      · exact Nat.zero_le _

/-- A matching block never extends past the `a`-window. -/
theorem commonLen_le_left (a b : List Char) (i j ahi bhi : Nat) :
    TicketAssistant.Difflib.commonLen a b i j ahi bhi ≤ ahi - i :=
  le_trans (commonLen_go_le_left _ _)
    (le_trans (List.length_take_le _ _) (le_refl _))

/-- A matching block never extends past the `b`-window. -/
theorem commonLen_le_right (a b : List Char) (i j ahi bhi : Nat) :
    TicketAssistant.Difflib.commonLen a b i j ahi bhi ≤ bhi - j :=
  le_trans (commonLen_go_le_right _ _)
    (le_trans (List.length_take_le _ _) (le_refl _))

/-- The block returned by `findLongestMatch` starts inside the windows and
fits inside both of them. -/
theorem findLongestMatch_spec (a b : List Char) (alo ahi blo bhi : Nat) :
    alo ≤ (TicketAssistant.Difflib.findLongestMatch a b alo ahi blo bhi).1 ∧
    blo ≤ (TicketAssistant.Difflib.findLongestMatch a b alo ahi blo bhi).2.1 ∧
    (TicketAssistant.Difflib.findLongestMatch a b alo ahi blo bhi).2.2 ≤
      ahi - (TicketAssistant.Difflib.findLongestMatch a b alo ahi blo bhi).1 ∧
    (TicketAssistant.Difflib.findLongestMatch a b alo ahi blo bhi).2.2 ≤
      bhi - (TicketAssistant.Difflib.findLongestMatch a b alo ahi blo bhi).2.1 := by
  unfold TicketAssistant.Difflib.findLongestMatch
  apply TicketAssistant.Helpers.foldl_invariant _
    (fun best : Nat × Nat × Nat =>
      alo ≤ best.1 ∧ blo ≤ best.2.1 ∧ best.2.2 ≤ ahi - best.1 ∧ best.2.2 ≤ bhi - best.2.1)
  · exact ⟨le_refl _, le_refl _, Nat.zero_le _, Nat.zero_le _⟩
  · intro best di hbest
    refine TicketAssistant.Helpers.foldl_invariant _
      (fun best : Nat × Nat × Nat =>
        alo ≤ best.1 ∧ blo ≤ best.2.1 ∧ best.2.2 ≤ ahi - best.1 ∧ best.2.2 ≤ bhi - best.2.1)
      _ best hbest ?_
    intro b2 dj h2
    dsimp only
    split_ifs
    · exact ⟨Nat.le_add_right _ _, Nat.le_add_right _ _,
        commonLen_le_left a b _ _ ahi bhi, commonLen_le_right a b _ _ ahi bhi⟩
    · exact h2

/-- `sumSizes` distributes over list append. -/
theorem sumSizes_append (l1 l2 : List (Nat × Nat × Nat)) :
    TicketAssistant.Difflib.sumSizes (l1 ++ l2) =
      TicketAssistant.Difflib.sumSizes l1 + TicketAssistant.Difflib.sumSizes l2 := by
  simp [TicketAssistant.Difflib.sumSizes]

/-- The raw decomposition of matching blocks covers at most either window. -/
theorem sumSizes_aux_le (a b : List Char) :
    ∀ (fuel alo ahi blo bhi : Nat),
      TicketAssistant.Difflib.sumSizes
          (TicketAssistant.Difflib.matchingBlocksAux a b fuel alo ahi blo bhi) ≤ ahi - alo ∧
      TicketAssistant.Difflib.sumSizes
          (TicketAssistant.Difflib.matchingBlocksAux a b fuel alo ahi blo bhi) ≤ bhi - blo := by
  intro fuel
  induction fuel with
  | zero =>
    intro alo ahi blo bhi
    simp [TicketAssistant.Difflib.matchingBlocksAux, TicketAssistant.Difflib.sumSizes]
  | succ fuel ih =>
    intro alo ahi blo bhi
    simp only [TicketAssistant.Difflib.matchingBlocksAux]
    split_ifs with hk
    · simp [TicketAssistant.Difflib.sumSizes]
    · obtain ⟨h1, h2, h3, h4⟩ := findLongestMatch_spec a b alo ahi blo bhi
      obtain ⟨hl1, hl2⟩ := ih alo (TicketAssistant.Difflib.findLongestMatch a b alo ahi blo bhi).1
        blo (TicketAssistant.Difflib.findLongestMatch a b alo ahi blo bhi).2.1
      obtain ⟨hr1, hr2⟩ := ih
        ((TicketAssistant.Difflib.findLongestMatch a b alo ahi blo bhi).1 +
          (TicketAssistant.Difflib.findLongestMatch a b alo ahi blo bhi).2.2) ahi
        ((TicketAssistant.Difflib.findLongestMatch a b alo ahi blo bhi).2.1 +
          (TicketAssistant.Difflib.findLongestMatch a b alo ahi blo bhi).2.2) bhi
      rw [sumSizes_append]
      constructor <;>
        · simp only [TicketAssistant.Difflib.sumSizes, List.map_cons, List.sum_cons] at *
          omega

/-- The adjacency merge preserves the total matched size. -/
theorem sumSizes_mergeBlocks (la lb : Nat) :
    ∀ (l : List (Nat × Nat × Nat)) (acc : Nat × Nat × Nat),
      TicketAssistant.Difflib.sumSizes (TicketAssistant.Difflib.mergeBlocks la lb acc l) =
        acc.2.2 + TicketAssistant.Difflib.sumSizes l := by
  intro l
  induction l with
  | nil =>
    intro acc
    by_cases h : acc.2.2 ≠ 0 <;>
      simp [TicketAssistant.Difflib.mergeBlocks, h, TicketAssistant.Difflib.sumSizes] <;> omega
  | cons bl rest ih =>
    intro acc
    simp only [TicketAssistant.Difflib.mergeBlocks]
    split_ifs with h h0
    · rw [ih]
      simp only [TicketAssistant.Difflib.sumSizes, List.map_cons, List.sum_cons]
      omega
    · rw [sumSizes_append, ih]
      simp only [TicketAssistant.Difflib.sumSizes, List.map_cons, List.sum_cons,
        List.map_nil, List.sum_nil]
      omega
    · rw [List.nil_append, ih]
      push_neg at h0
      simp only [TicketAssistant.Difflib.sumSizes, List.map_cons, List.sum_cons, h0]
      omega

/-- The total matched size of `getMatchingBlocks` is bounded by either string
length. -/
theorem sumSizes_blocks_le (a b : List Char) :
    TicketAssistant.Difflib.sumSizes (TicketAssistant.Difflib.getMatchingBlocks a b) ≤
        a.length ∧
      TicketAssistant.Difflib.sumSizes (TicketAssistant.Difflib.getMatchingBlocks a b) ≤
        b.length := by
  unfold TicketAssistant.Difflib.getMatchingBlocks
  rw [sumSizes_mergeBlocks]
  have h := sumSizes_aux_le a b (a.length + b.length + 1) 0 a.length 0 b.length
  constructor <;> · simp only [Nat.zero_add]; omega

/-- `SequenceMatcher.ratio` lies in `[0, 1]`. -/
theorem ratioQ_nonneg (a b : List Char) : 0 ≤ TicketAssistant.Difflib.ratioQ a b := by
  unfold TicketAssistant.Difflib.ratioQ
  dsimp only
  split_ifs
  · norm_num
  · positivity

theorem ratioQ_le_one (a b : List Char) : TicketAssistant.Difflib.ratioQ a b ≤ 1 := by
  unfold TicketAssistant.Difflib.ratioQ
  dsimp only
  split_ifs with h
  · exact le_refl 1
  · have hM := sumSizes_blocks_le a b
    have hpos : (0 : ℚ) < ((a.length + b.length : ℕ) : ℚ) := by
      have : 0 < a.length + b.length := Nat.pos_of_ne_zero h
      exact_mod_cast this
    rw [div_le_one hpos]
    have : 2 * TicketAssistant.Difflib.sumSizes (TicketAssistant.Difflib.getMatchingBlocks a b) ≤
        a.length + b.length := by omega
    exact_mod_cast this

/-- `intr` of a non-negative rational is non-negative. -/
theorem intr_nonneg (x : ℚ) (hx : 0 ≤ x) : 0 ≤ TicketAssistant.Fuzz.intr x := by
  simp only [TicketAssistant.Fuzz.intr]
  have h0 : (0 : ℤ) ≤ ⌊x⌋ := Int.floor_nonneg.mpr hx
  split_ifs <;> omega

/-- `intr` never rounds above an integer upper bound. -/
theorem intr_le (x : ℚ) (m : ℤ) (h : x ≤ m) : TicketAssistant.Fuzz.intr x ≤ m := by
  simp only [TicketAssistant.Fuzz.intr]
  have hfl : ⌊x⌋ ≤ m := by
    have h2 := Int.floor_le_floor h
    simpa using h2
  have hxm : x - (⌊x⌋ : ℚ) ≤ m - ⌊x⌋ := by
    have : x - (⌊x⌋ : ℚ) ≤ (m : ℚ) - ⌊x⌋ := by linarith
    simpa using this
  split_ifs with h1 h2 h3
  · exact hfl
  · rcases lt_or_eq_of_le hfl with hlt | heq
    · omega
    · exfalso
      rw [heq] at h2
      have hle : x - (m : ℚ) ≤ 0 := by
        have : x ≤ (m : ℚ) := h
        linarith
      linarith
  · exact hfl
  · rcases lt_or_eq_of_le hfl with hlt | heq
    · omega
    · exfalso
      rw [heq] at h1
      have hle : x - (m : ℚ) ≤ 0 := by
        have : x ≤ (m : ℚ) := h
        linarith
      have : x - (m : ℚ) < 1 / 2 := by linarith
      exact h1 this

/-- `fuzz.ratio` is a percentage: at most 100. -/
theorem fuzz_ratio_le_100 (s1 s2 : List Char) : TicketAssistant.Fuzz.ratio s1 s2 ≤ 100 := by
  unfold TicketAssistant.Fuzz.ratio
  apply Int.toNat_le.mpr
  apply intr_le
  push_cast
  have h := ratioQ_le_one s1 s2
  linarith

/-- A fold of `max` stays below any bound dominating the seed and the list. -/
theorem foldl_max_le (c : ℚ) : ∀ (l : List ℚ) (init : ℚ),
    init ≤ c → (∀ x ∈ l, x ≤ c) → l.foldl max init ≤ c := by
  intro l
  induction l with
  | nil => intro init h _; exact h
  | cons x xs ih =>
    intro init h hall
    simp only [List.foldl_cons]
    exact ih (max init x)
      (max_le h (hall x (List.mem_cons_self x xs)))
      (fun y hy => hall y (List.mem_cons_of_mem x hy))

/-- The rounded best window score of `partial_ratio` is at most 100. -/
theorem partial_window_le_100 (shorter longer : List Char) :
    (TicketAssistant.Fuzz.intr (100 * List.foldl max 0 (List.map
      (fun bl : Nat × Nat × Nat => TicketAssistant.Difflib.ratioQ shorter
        (List.take shorter.length (List.drop (bl.2.1 - bl.1) longer)))
      (TicketAssistant.Difflib.getMatchingBlocks shorter longer)))).toNat ≤ 100 := by
  apply Int.toNat_le.mpr
  apply intr_le
  have hmax : List.foldl max 0 (List.map
      (fun bl : Nat × Nat × Nat => TicketAssistant.Difflib.ratioQ shorter
        (List.take shorter.length (List.drop (bl.2.1 - bl.1) longer)))
      (TicketAssistant.Difflib.getMatchingBlocks shorter longer)) ≤ (1 : ℚ) := by
    apply foldl_max_le
    · norm_num
    · intro x hx
      obtain ⟨bl, _, rfl⟩ := List.mem_map.mp hx
      exact ratioQ_le_one _ _
  push_cast
  linarith

/-- `fuzz.partial_ratio` is a percentage: at most 100. -/
theorem fuzz_partialRatio_le_100 (s1 s2 : List Char) :
    TicketAssistant.Fuzz.partialRatio s1 s2 ≤ 100 := by
  unfold TicketAssistant.Fuzz.partialRatio
  dsimp only
  split_ifs
  · exact le_refl 100
  · exact partial_window_le_100 s1 s2
  · exact le_refl 100
  · exact partial_window_le_100 s2 s1

/-- `fuzz.token_sort_ratio` is a percentage: at most 100. -/
theorem fuzz_tokenSortRatio_le_100 (s1 s2 : List Char) :
    TicketAssistant.Fuzz.tokenSortRatio s1 s2 ≤ 100 :=
  fuzz_ratio_le_100 _ _

/-- First entry of the consensus score list: the scaled whole-string ratio. -/
theorem consensus_scores_getD_zero (name1 name2 : List Char) :
    (consensus_scores name1 name2).getD 0 0 =
      (TicketAssistant.Fuzz.ratio (pyLower (extract_core_company_name name1))
        (pyLower (extract_core_company_name name2)) : ℚ) / 100 := rfl

/-- Third entry of the consensus score list: the scaled token-sort ratio. -/
theorem consensus_scores_getD_two (name1 name2 : List Char) :
    (consensus_scores name1 name2).getD 2 0 =
      (TicketAssistant.Fuzz.tokenSortRatio (pyLower (extract_core_company_name name1))
        (pyLower (extract_core_company_name name2)) : ℚ) / 100 := rfl

/-- The length penalty always lies in `[0, 1]` (its values are
`1`, `0.85`, `0.6` and `0.5`). -/
theorem penalty_nonneg (n1 n2 : List Char) : 0 ≤ calculate_length_penalty n1 n2 := by
  unfold calculate_length_penalty
  dsimp only
  split_ifs <;> norm_num

theorem penalty_le_one (n1 n2 : List Char) : calculate_length_penalty n1 n2 ≤ 1 := by
  unfold calculate_length_penalty
  dsimp only
  split_ifs <;> norm_num

/-- The consensus score lies in `[0, 1]`. -/
theorem consensus_nonneg (n1 n2 : List Char) : 0 ≤ calculate_consensus_score n1 n2 := by
  unfold calculate_consensus_score
  dsimp only
  split_ifs
  · exact le_refl 0
  · exact le_refl 0
  · have h0 : 0 ≤ (consensus_scores n1 n2).getD 0 0 := by
      rw [consensus_scores_getD_zero]
      exact div_nonneg (Nat.cast_nonneg _) (by norm_num)
    have h1 : 0 ≤ (consensus_scores n1 n2).getD 1 0 := by
      rw [consensus_scores_getD_one]
      exact div_nonneg (Nat.cast_nonneg _) (by norm_num)
    have h2 : 0 ≤ (consensus_scores n1 n2).getD 2 0 := by
      rw [consensus_scores_getD_two]
      exact div_nonneg (Nat.cast_nonneg _) (by norm_num)
    have hp := penalty_nonneg (extract_core_company_name n1) (extract_core_company_name n2)
    have hw : 0 ≤ (consensus_scores n1 n2).getD 0 0 * (4 / 10) +
        (consensus_scores n1 n2).getD 1 0 * (3 / 10) +
        (consensus_scores n1 n2).getD 2 0 * (3 / 10) := by linarith
    exact mul_nonneg hw hp

theorem consensus_le_one (n1 n2 : List Char) : calculate_consensus_score n1 n2 ≤ 1 := by
  unfold calculate_consensus_score
  dsimp only
  split_ifs
  · norm_num
  · norm_num
  · have h0 : (consensus_scores n1 n2).getD 0 0 ≤ 1 := by
      rw [consensus_scores_getD_zero, div_le_one (by norm_num)]
      exact_mod_cast fuzz_ratio_le_100 _ _
    have h1 : (consensus_scores n1 n2).getD 1 0 ≤ 1 := by
      rw [consensus_scores_getD_one, div_le_one (by norm_num)]
      exact_mod_cast fuzz_partialRatio_le_100 _ _
    have h2 : (consensus_scores n1 n2).getD 2 0 ≤ 1 := by
      rw [consensus_scores_getD_two, div_le_one (by norm_num)]
      exact_mod_cast fuzz_tokenSortRatio_le_100 _ _
    have h0n : 0 ≤ (consensus_scores n1 n2).getD 0 0 := by
      rw [consensus_scores_getD_zero]
      exact div_nonneg (Nat.cast_nonneg _) (by norm_num)
    have h1n : 0 ≤ (consensus_scores n1 n2).getD 1 0 := by
      rw [consensus_scores_getD_one]
      exact div_nonneg (Nat.cast_nonneg _) (by norm_num)
    have h2n : 0 ≤ (consensus_scores n1 n2).getD 2 0 := by
      rw [consensus_scores_getD_two]
      exact div_nonneg (Nat.cast_nonneg _) (by norm_num)
    have hw : (consensus_scores n1 n2).getD 0 0 * (4 / 10) +
        (consensus_scores n1 n2).getD 1 0 * (3 / 10) +
        (consensus_scores n1 n2).getD 2 0 * (3 / 10) ≤ 1 := by linarith
    have hwn : 0 ≤ (consensus_scores n1 n2).getD 0 0 * (4 / 10) +
        (consensus_scores n1 n2).getD 1 0 * (3 / 10) +
        (consensus_scores n1 n2).getD 2 0 * (3 / 10) := by linarith
    have hp := penalty_nonneg (extract_core_company_name n1) (extract_core_company_name n2)
    have hp1 := penalty_le_one (extract_core_company_name n1) (extract_core_company_name n2)
    nlinarith

/-- The running best score of the fuzzy fold never exceeds `1`. -/
theorem fuzzyBest_fst_le_one (customers : List Customer) (cn : List Char) :
    (fuzzyBest customers cn).1 ≤ 1 := by
  unfold fuzzyBest
  apply TicketAssistant.Helpers.foldl_invariant _
    (fun best : ℚ × Option TicketAssistant.Customer => best.1 ≤ 1)
  · norm_num
  · intro b c hb
    unfold fuzzyStep
    dsimp only
    split_ifs
    · exact consensus_le_one _ _
    · exact hb

/-- Any tier-2 result satisfies the C9 result invariant. -/
theorem find_fuzzy_good (customers : List Customer) (cn : List Char)
    (f : TicketAssistant.CustomerMatchResult)
    (h : find_fuzzy_company_match customers cn = some f) : goodResult f := by
  have hge := fuzzy_some_conf_ge customers cn f h
  simp only [find_fuzzy_company_match] at h
  split at h
  next hc =>
    split at h
    next c heq =>
      cases h
      refine ⟨Or.inl ⟨rfl, rfl, ?_⟩, ?_, ?_, ?_⟩
      · exact lt_of_lt_of_le (by norm_num) hc
      · exact le_of_lt (lt_of_lt_of_le (by norm_num) hc)
      · exact fuzzyBest_fst_le_one customers cn
      · exact (by decide : fuzzyReason ≠ "")
    next => cases h
  next => cases h

/-- The email-tier reason string is never empty. -/
theorem emailReason_ne_empty (n : ℕ) : emailReason n ≠ "" := by
  intro h
  unfold emailReason at h
  have h2 := congrArg String.length h
  simp [String.length_append] at h2
  exact (by decide : ¬ ("%)" : String).length = 0) h2.2

/-- The boosted email-tier confidence is strictly positive. -/
theorem email_conf_pos (n : ℕ) : (0 : ℚ) < min (9 / 10) ((n + 70 : ℚ) / 100) := by
  apply lt_min
  · norm_num
  · apply div_pos _ (by norm_num)
    have h : (0 : ℚ) ≤ n := Nat.cast_nonneg n
    linarith

/-- Any tier-3 result satisfies the C9 result invariant. -/
theorem email_loop_good (company_name ed : List Char) :
    ∀ (l : List Customer) (e : TicketAssistant.CustomerMatchResult),
      email_loop company_name ed l = Except.ok (some e) → goodResult e := by
  intro l
  induction l with
  | nil => intro e h; simp [email_loop] at h
  | cons cu rest ih =>
    intro e h
    rw [email_loop] at h
    by_cases h1 : cu.contact_person.email.data.isEmpty
    · rw [if_pos h1] at h
      exact ih e h
    · rw [if_neg h1] at h
      cases hdom : (pySplitOn '@' cu.contact_person.email.data).get? 1 with
      | none => rw [hdom] at h; simp at h
      | some dom =>
        rw [hdom] at h
        dsimp only at h
        by_cases h2 : pyLower dom = ed
        · rw [if_pos h2] at h
          by_cases h3 :
            TicketAssistant.Fuzz.partialRatio (pyLower company_name) (pyLower cu.name.data) ≥ 50
          · rw [if_pos h3] at h
            injection h with h'
            injection h' with h''
            subst h''
            refine ⟨Or.inl ⟨rfl, rfl, email_conf_pos _⟩, le_of_lt (email_conf_pos _), ?_, ?_⟩
            · exact le_trans (min_le_left _ _) (by norm_num)
            · exact emailReason_ne_empty _
          · rw [if_neg h3] at h
            exact ih e h
        · rw [if_neg h2] at h
          exact ih e h

theorem find_email_good (customers : List Customer) (ce cn : List Char)
    (e : TicketAssistant.CustomerMatchResult)
    (h : find_email_match customers ce cn = Except.ok (some e)) : goodResult e := by
  unfold find_email_match at h
  split_ifs at h with h1
  · simp at h
  · exact email_loop_good cn _ customers e h

/-- Line 54's fallback satisfies the C9 result invariant whenever the fuzzy
candidate does. -/
theorem finalResult_good (fz : Option TicketAssistant.CustomerMatchResult)
    (hf : ∀ f, fz = some f → goodResult f) : goodResult (finalResult fz) := by
  cases fz with
  | none =>
    exact ⟨Or.inr ⟨rfl, rfl⟩, le_refl 0, show (0 : ℚ) ≤ 1 by norm_num, by decide⟩
  | some f => exact hf f rfl

/-- The email phase (lines 47–57) preserves the C9 result invariant. -/
theorem emailPhase_good (customers : List Customer) (cn ce : List Char)
    (fz : Option TicketAssistant.CustomerMatchResult)
    (r : TicketAssistant.CustomerMatchResult)
    (hf : ∀ f, fz = some f → goodResult f)
    (h : emailPhase customers cn ce fz = some r) : goodResult r := by
  unfold emailPhase at h
  split_ifs at h with hce
  · injection h with h'
    subst h'
    exact finalResult_good fz hf
  · split at h
    · simp at h
    · injection h with h'
      subst h'
      exact finalResult_good fz hf
    · next e heq =>
      split at h
      · simp at h
      · next f =>
        split_ifs at h with hcmp
        · injection h with h'
          subst h'
          exact find_email_good customers ce cn e heq
        · injection h with h'
          subst h'
          exact finalResult_good (some f) (fun f' hf' => hf f' hf')

/-- Any tier-1 result satisfies the C9 result invariant. -/
theorem find_exact_good (customers : List Customer) (cn : List Char)
    (ex : TicketAssistant.CustomerMatchResult)
    (h : find_exact_match customers cn = some ex) : goodResult ex := by
  simp only [find_exact_match] at h
  split at h
  next c heq =>
    injection h with h'
    subst h'
    exact ⟨Or.inl ⟨rfl, rfl, show (0 : ℚ) < 1 by norm_num⟩,
      show (0 : ℚ) ≤ 1 by norm_num, le_refl 1, (by decide : exactReason ≠ "")⟩
  next => cases h

/-- **C9** — CONFIRMED.  Every returned `MatchResult` is either a success
(id and name present, confidence strictly positive) or an explicit no-match
(id absent, confidence zero) — the two forms exclude each other — with
confidence in `[0, 1]` and a non-empty reason; empty or whitespace-only
company names yield the no-match form with the "no company name" reason.
`find_customer_match ... = some r` restricts the statement to calls that
return (the crashing inputs of C1/C2/C5 return nothing). -/
theorem C9_result_invariant (customers : List Customer)
    (company_name contact_name contact_email : String)
    (r : TicketAssistant.CustomerMatchResult)
    (h : find_customer_match customers company_name contact_name contact_email = some r) :
    goodResult r ∧
      ((pyStrip company_name.data).isEmpty = true →
        r.customer_id = none ∧ r.confidence_score = 0 ∧ r.match_reason = noNameReason) := by
  simp only [find_customer_match] at h
  split_ifs at h with hemp
  · injection h with h'
    subst h'
    exact ⟨⟨Or.inr ⟨rfl, rfl⟩, le_refl 0, show (0 : ℚ) ≤ 1 by norm_num, by decide⟩,
      fun _ => ⟨rfl, rfl, rfl⟩⟩
  · refine ⟨?_, fun hcontra => absurd hcontra hemp⟩
    split at h
    · next ex hex =>
      injection h with h'
      subst h'
      exact find_exact_good customers company_name.data ex hex
    · next hexnone =>
      split at h
      · next f hfz =>
        split_ifs at h with hconf
        · injection h with h'
          subst h'
          exact find_fuzzy_good customers company_name.data f hfz
        · rw [hfz] at h
          exact emailPhase_good customers company_name.data contact_email.data (some f) r
            (fun f' hf' => by
              cases hf'
              exact find_fuzzy_good customers company_name.data f hfz) h
      · next hfz =>
        rw [hfz] at h
        exact emailPhase_good customers company_name.data contact_email.data none r
          (fun f' hf' => absurd hf' (by simp)) h

/-- Witness for C9: the empty roster and the input `"Acme"` return the
explicit no-suitable-match result, which satisfies the invariant. -/
theorem C9_witness :
    goodResult noSuitableResult ∧
      ((pyStrip (("Acme") : String).data).isEmpty = true →
        noSuitableResult.customer_id = none ∧ noSuitableResult.confidence_score = 0 ∧
          noSuitableResult.match_reason = noNameReason) :=
  C9_result_invariant [] ("Acme") ("") ("") noSuitableResult (by with_unfolding_all decide)
